import Mathlib

/-!
# Verification of `Source/WebCore/html/track/TrackBase.cpp`

A shallow embedding of the track base type of the WebKit media-track code:
the hand-rolled BCP-47 language-tag validator `isValidBCP47LanguageTag`,
the `TrackBase` state (unique id, id, label, language, validated language,
track-list back-reference) with its constructor and mutators, and the
`MediaTrackBase` kind mutator.

Strings are embedded as `List Char` (the C++ code indexes UTF-16 code units
of a `WTF::String`; every character class tested below is ASCII, so the
code-unit/scalar-value distinction never matters for the checked
properties).  Console diagnostics posted through the scripting context are
embedded as an explicit list of emitted messages returned by each
operation.
-/

namespace WebCore

/-- `WTF::isASCIIAlpha`: ASCII letter test. -/
def isASCIIAlpha (c : Char) : Bool :=
  ('a' ≤ c && c ≤ 'z') || ('A' ≤ c && c ≤ 'Z')

/-- `WTF::isASCIIDigit`: ASCII digit test. -/
def isASCIIDigit (c : Char) : Bool :=
  '0' ≤ c && c ≤ '9'

/-- `WTF::isASCIIAlphanumeric`. -/
def isASCIIAlphanumeric (c : Char) : Bool :=
  isASCIIDigit c || isASCIIAlpha c

/-- One iteration of the final `for` loop of `isValidBCP47LanguageTag`:
a character passes when it is ASCII alphanumeric or `-`. -/
def charOk (c : Char) : Bool :=
  isASCIIAlphanumeric c || c == '-'

/-- The final `for` loop of `isValidBCP47LanguageTag`: every character from
index `i` (the `nextCharIndexToCheck` resume index) to the end must pass
`charOk`. -/
def scanFrom (l : List Char) (i : Nat) : Bool :=
  (l.drop i).all charOk

/-- `isValidBCP47LanguageTag` (TrackBase.cpp lines 105-153), translated
branch for branch.  All index accesses in the source are guarded by the
length tests, so the `getD` default is never read. -/
def isValidBCP47LanguageTag (languageTag : List Char) : Bool :=
  if languageTag.length < 2 ∨ 100 < languageTag.length then false
  else if isASCIIAlpha (languageTag.getD 0 ' ') = false then false
  else if languageTag.length = 2 then isASCIIAlpha (languageTag.getD 1 ' ')
  else if (languageTag.getD 0 ' ' = 'i' ∨ languageTag.getD 0 ' ' = 'x') ∧
      languageTag.getD 1 ' ' = '-' then
    scanFrom languageTag 2
  else if isASCIIAlpha (languageTag.getD 1 ' ') = false then false
  else if languageTag.length = 3 then isASCIIAlpha (languageTag.getD 2 ' ')
  else if isASCIIAlpha (languageTag.getD 2 ' ') = true then
    (if languageTag.getD 3 ' ' = '-' then scanFrom languageTag 4 else false)
  else if languageTag.getD 2 ' ' = '-' then scanFrom languageTag 3
  else false

/-- The validator on a `String`, as the spec's `isValidTag(text) -> bool`. -/
def isValidTag (s : String) : Bool :=
  isValidBCP47LanguageTag s.data

end WebCore

namespace WebCore

/-- Spec wording: "every character from index `i` onward is ASCII
alphanumeric or `-`". -/
def suffixOk (l : List Char) (i : Nat) : Prop :=
  ∀ c ∈ l.drop i, isASCIIAlphanumeric c = true ∨ c = '-'

/-- The simplified BCP-47 grammar exactly as the spec states it (spec
section 4.1), written from the spec's words, independent of the code. -/
def bcp47Grammar (l : List Char) : Prop :=
  2 ≤ l.length ∧ l.length ≤ 100 ∧
  isASCIIAlpha (l.getD 0 ' ') = true ∧
  (if l.length = 2 then isASCIIAlpha (l.getD 1 ' ') = true
   else if (l.getD 0 ' ' = 'i' ∨ l.getD 0 ' ' = 'x') ∧ l.getD 1 ' ' = '-' then suffixOk l 2
   else isASCIIAlpha (l.getD 1 ' ') = true ∧
     (l.length = 3 → isASCIIAlpha (l.getD 2 ' ') = true) ∧
     (3 < l.length →
       (isASCIIAlpha (l.getD 2 ' ') = true ∧ l.getD 3 ' ' = '-' ∧ suffixOk l 4) ∨
       (l.getD 2 ' ' = '-' ∧ suffixOk l 3)))

/-- The generic suffix scan agrees with the spec's "ASCII alphanumeric or
`-`" condition. -/
theorem scanFrom_iff_suffixOk (l : List Char) (i : Nat) :
    scanFrom l i = true ↔ suffixOk l i := by
  simp [scanFrom, suffixOk, charOk, List.all_eq_true, Bool.or_eq_true, beq_iff_eq]

/-- An ASCII letter is never the dash character. -/
theorem alpha_ne_dash {c : Char} (h : isASCIIAlpha c = true) : c ≠ '-' := by
  intro hc; subst hc; simp [isASCIIAlpha] at h

/-- Core case analysis: the validator accepts exactly the strings of the
spec's simplified grammar. -/
theorem isValid_iff_grammar (l : List Char) :
    isValidBCP47LanguageTag l = true ↔ bcp47Grammar l := by
  unfold isValidBCP47LanguageTag bcp47Grammar
  by_cases h1 : l.length < 2 ∨ 100 < l.length
  · rw [if_pos h1]
    simp only [Bool.false_eq_true, false_iff]
    rintro ⟨hlo, hhi, -⟩
    omega
  · rw [if_neg h1]
    by_cases h2 : isASCIIAlpha (l.getD 0 ' ') = false
    · rw [if_pos h2]
      simp only [Bool.false_eq_true, false_iff]
      rintro ⟨-, -, ha, -⟩
      rw [h2] at ha
      exact Bool.false_ne_true ha
    · rw [if_neg h2]
      have halpha0 : isASCIIAlpha (l.getD 0 ' ') = true := by
        cases hb : isASCIIAlpha (l.getD 0 ' ')
        · exact absurd hb h2
        · rfl
      by_cases h3 : l.length = 2
      · rw [if_pos h3, if_pos h3]
        constructor
        · intro hv
          exact ⟨by omega, by omega, halpha0, hv⟩
        · rintro ⟨-, -, -, hv⟩
          exact hv
      · rw [if_neg h3, if_neg h3]
        by_cases h4 : (l.getD 0 ' ' = 'i' ∨ l.getD 0 ' ' = 'x') ∧ l.getD 1 ' ' = '-'
        · rw [if_pos h4, if_pos h4, scanFrom_iff_suffixOk]
          constructor
          · intro hv
            exact ⟨by omega, by omega, halpha0, hv⟩
          · rintro ⟨-, -, -, hv⟩
            exact hv
        · rw [if_neg h4, if_neg h4]
          by_cases h5 : isASCIIAlpha (l.getD 1 ' ') = false
          · rw [if_pos h5]
            simp only [Bool.false_eq_true, false_iff]
            rintro ⟨-, -, -, ha1, -⟩
            rw [h5] at ha1
            exact Bool.false_ne_true ha1
          · rw [if_neg h5]
            have halpha1 : isASCIIAlpha (l.getD 1 ' ') = true := by
              cases hb : isASCIIAlpha (l.getD 1 ' ')
              · exact absurd hb h5
              · rfl
            by_cases h6 : l.length = 3
            · rw [if_pos h6]
              constructor
              · intro hv
                exact ⟨by omega, by omega, halpha0, halpha1, fun _ => hv,
                  fun hlen => absurd h6 (by omega)⟩
              · rintro ⟨-, -, -, -, hv, -⟩
                exact hv h6
            · rw [if_neg h6]
              have h3lt : 3 < l.length := by omega
              by_cases h7 : isASCIIAlpha (l.getD 2 ' ') = true
              · rw [if_pos h7]
                by_cases h8 : l.getD 3 ' ' = '-'
                · rw [if_pos h8, scanFrom_iff_suffixOk]
                  constructor
                  · intro hv
                    exact ⟨by omega, by omega, halpha0, halpha1, fun h => absurd h h6,
                      fun _ => Or.inl ⟨h7, h8, hv⟩⟩
                  · rintro ⟨-, -, -, -, -, hv⟩
                    rcases hv h3lt with ⟨-, -, hs⟩ | ⟨hd2, -⟩
                    · exact hs
                    · exact absurd hd2 (alpha_ne_dash h7)
                · rw [if_neg h8]
                  simp only [Bool.false_eq_true, false_iff]
                  rintro ⟨-, -, -, -, -, hv⟩
                  rcases hv h3lt with ⟨-, hd3, -⟩ | ⟨hd2, -⟩
                  · exact h8 hd3
                  · exact absurd hd2 (alpha_ne_dash h7)
              · rw [if_neg h7]
                by_cases h9 : l.getD 2 ' ' = '-'
                · rw [if_pos h9, scanFrom_iff_suffixOk]
                  constructor
                  · intro hv
                    exact ⟨by omega, by omega, halpha0, halpha1, fun h => absurd h h6,
                      fun _ => Or.inr ⟨h9, hv⟩⟩
                  · rintro ⟨-, -, -, -, -, hv⟩
                    rcases hv h3lt with ⟨ha2, -, -⟩ | ⟨-, hs⟩
                    · exact absurd ha2 h7
                    · exact hs
                · rw [if_neg h9]
                  simp only [Bool.false_eq_true, false_iff]
                  rintro ⟨-, -, -, -, -, hv⟩
                  rcases hv h3lt with ⟨ha2, -, -⟩ | ⟨hd2, -⟩
                  · exact absurd ha2 h7
                  · exact h9 hd2

end WebCore

namespace WebCore

/-- The `'\0'` character of the null-character test in `setLanguage`. -/
def nullChar : Char := Char.ofNat 0

/-- An ASCII letter passes the suffix-scan character test. -/
theorem charOk_of_alpha {c : Char} (h : isASCIIAlpha c = true) : charOk c = true := by
  simp [charOk, isASCIIAlphanumeric, h]

/-- A character reached by a successful suffix scan passes `charOk`. -/
theorem scanFrom_getD {l : List Char} {i k : Nat} (h : scanFrom l i = true)
    (hik : i ≤ k) (hk : k < l.length) : charOk (l.getD k ' ') = true := by
  rw [List.getD_eq_getElem l ' ' hk]
  have hall := List.all_eq_true.mp h
  have hj : k - i < (l.drop i).length := by
    rw [List.length_drop]
    omega
  have hmem : (l.drop i)[k - i] ∈ l.drop i := List.getElem_mem hj
  have hCh := hall _ hmem
  have hidx : i + (k - i) = k := by omega
  rw [List.getElem_drop] at hCh
  simp only [hidx] at hCh
  exact hCh

/-- Every character of a tag accepted by the validator is ASCII
alphanumeric or `-`. -/
theorem valid_chars {l : List Char} (hv : isValidBCP47LanguageTag l = true) :
    ∀ c ∈ l, charOk c = true := by
  intro c hc
  obtain ⟨k, hk, rfl⟩ := List.mem_iff_getElem.mp hc
  rw [← List.getD_eq_getElem l ' ' hk]
  unfold isValidBCP47LanguageTag at hv
  by_cases h1 : l.length < 2 ∨ 100 < l.length
  · rw [if_pos h1] at hv
    exact absurd hv Bool.false_ne_true
  rw [if_neg h1] at hv
  by_cases h2 : isASCIIAlpha (l.getD 0 ' ') = false
  · rw [if_pos h2] at hv
    exact absurd hv Bool.false_ne_true
  rw [if_neg h2] at hv
  have halpha0 : isASCIIAlpha (l.getD 0 ' ') = true := by
    cases hb : isASCIIAlpha (l.getD 0 ' ')
    · exact absurd hb h2
    · rfl
  by_cases h3 : l.length = 2
  · rw [if_pos h3] at hv
    rw [h3] at hk
    interval_cases k
    · exact charOk_of_alpha halpha0
    · exact charOk_of_alpha hv
  rw [if_neg h3] at hv
  by_cases h4 : (l.getD 0 ' ' = 'i' ∨ l.getD 0 ' ' = 'x') ∧ l.getD 1 ' ' = '-'
  · rw [if_pos h4] at hv
    rcases k with _ | _ | k
    · exact charOk_of_alpha halpha0
    · rw [h4.2]
      decide
    · exact scanFrom_getD hv (by omega) hk
  rw [if_neg h4] at hv
  by_cases h5 : isASCIIAlpha (l.getD 1 ' ') = false
  · rw [if_pos h5] at hv
    exact absurd hv Bool.false_ne_true
  rw [if_neg h5] at hv
  have halpha1 : isASCIIAlpha (l.getD 1 ' ') = true := by
    cases hb : isASCIIAlpha (l.getD 1 ' ')
    · exact absurd hb h5
    · rfl
  by_cases h6 : l.length = 3
  · rw [if_pos h6] at hv
    rw [h6] at hk
    interval_cases k
    · exact charOk_of_alpha halpha0
    · exact charOk_of_alpha halpha1
    · exact charOk_of_alpha hv
  rw [if_neg h6] at hv
  by_cases h7 : isASCIIAlpha (l.getD 2 ' ') = true
  · rw [if_pos h7] at hv
    by_cases h8 : l.getD 3 ' ' = '-'
    · rw [if_pos h8] at hv
      rcases k with _ | _ | _ | _ | k
      · exact charOk_of_alpha halpha0
      · exact charOk_of_alpha halpha1
      · exact charOk_of_alpha h7
      · rw [h8]
        decide
      · exact scanFrom_getD hv (by omega) hk
    · rw [if_neg h8] at hv
      exact absurd hv Bool.false_ne_true
  · rw [if_neg h7] at hv
    by_cases h9 : l.getD 2 ' ' = '-'
    · rw [if_pos h9] at hv
      rcases k with _ | _ | _ | k
      · exact charOk_of_alpha halpha0
      · exact charOk_of_alpha halpha1
      · rw [h9]
        decide
      · exact scanFrom_getD hv (by omega) hk
    · rw [if_neg h9] at hv
      exact absurd hv Bool.false_ne_true

/-- The validator never accepts a tag containing a null character. -/
theorem valid_no_null {l : List Char} (hv : isValidBCP47LanguageTag l = true) :
    nullChar ∉ l := by
  intro hmem
  have h := valid_chars hv _ hmem
  exact absurd h (by decide)

end WebCore

namespace WebCore

/-- `TrackBase::Type` (TrackBase.h). -/
inductive TrackType where
  | BaseTrack
  | AudioTrack
  | TextTrack
  | VideoTrack
deriving DecidableEq

/-- `MessageSource` value used by `setLanguage`. -/
inductive MessageSource where
  | Rendering
deriving DecidableEq

/-- `MessageLevel` value used by `setLanguage`. -/
inductive MessageLevel where
  | Warning
deriving DecidableEq

/-- One `addConsoleMessage` call on the scripting context. -/
structure ConsoleMessage where
  source : MessageSource
  level : MessageLevel
  message : String
deriving DecidableEq

/-- The `TrackBase` members.  `hasContext` embeds whether
`scriptExecutionContext()` is non-null; `m_trackList` is the weak
back-reference to the owning `TrackListBase`, embedded as an optional
handle. -/
structure TrackBase where
  hasContext : Bool
  m_type : TrackType
  m_uniqueId : Int
  m_id : String
  m_trackId : Nat
  m_label : String
  m_language : String
  m_validBCP47Language : String
  m_trackList : Option Nat
deriving DecidableEq

/-- `TrackBase::TrackBase` (lines 53-75).  `counter` is the value of the
process-wide `s_uniqueId` before construction; the constructor
pre-increments it and stores the new value as `m_uniqueId`.  The returned
list is the console messages posted during construction (the constructor
posts none). -/
def trackBaseInit (counter : Int) (context : Bool) (type : TrackType)
    (id : Option String) (trackId : Nat) (label : String) (language : String) :
    Int × TrackBase × List ConsoleMessage :=
  (counter + 1,
   { hasContext := context
     m_type := type
     m_uniqueId := counter + 1
     m_id := id.getD (toString trackId)
     m_trackId := trackId
     m_label := label
     m_language := language
     m_validBCP47Language := if isValidTag language then language else ""
     m_trackList := none },
   [])

/-- `TrackBase::setLanguage` (lines 155-176). -/
def TrackBase.setLanguage (t : TrackBase) (language : String) :
    TrackBase × List ConsoleMessage :=
  if language = "" ∨ isValidTag language = true then
    ({ t with m_language := language, m_validBCP47Language := language }, [])
  else
    let t2 : TrackBase := { t with m_language := language, m_validBCP47Language := "" }
    if t.hasContext = false then
      (t2, [])
    else
      let message :=
        if nullChar ∈ language.data then
          "The language contains a null character and is not a valid BCP 47 language tag."
        else
          "The language '" ++ language ++ "' is not a valid BCP 47 language tag."
      (t2, [{ source := MessageSource.Rendering, level := MessageLevel.Warning,
              message := message }])

/-- `TrackBase::setTrackList` (lines 82-85). -/
def TrackBase.setTrackList (t : TrackBase) (trackList : Nat) : TrackBase :=
  { t with m_trackList := some trackList }

/-- `TrackBase::clearTrackList` (lines 87-90). -/
def TrackBase.clearTrackList (t : TrackBase) : TrackBase :=
  { t with m_trackList := none }

/-- `TrackBase::trackList` accessor (lines 92-95); the spec's
`currentList()`. -/
def TrackBase.trackList (t : TrackBase) : Option Nat :=
  t.m_trackList

/-- `MediaTrackBase` (lines 191-207): a `TrackBase` plus the `m_kind`
member. -/
structure MediaTrackBase extends TrackBase where
  m_kind : String
deriving DecidableEq

/-- `MediaTrackBase::setKindInternal` (lines 201-207).  `isValidKind` is
the virtual kind-validity predicate supplied by the concrete track
variant.  The returned list is the console messages posted (none). -/
def MediaTrackBase.setKindInternal (isValidKind : String → Bool)
    (m : MediaTrackBase) (kind : String) : MediaTrackBase × List ConsoleMessage :=
  if isValidKind kind then
    ({ m with m_kind := kind }, [])
  else
    ({ m with m_kind := "" }, [])

/-- `MediaTrackBase::setKind` (lines 196-199): delegates to
`setKindInternal`. -/
def MediaTrackBase.setKind (isValidKind : String → Bool)
    (m : MediaTrackBase) (kind : String) : MediaTrackBase × List ConsoleMessage :=
  MediaTrackBase.setKindInternal isValidKind m kind

/-- Arguments of one `TrackBase` construction, for reasoning about
sequences of constructions against the shared `s_uniqueId` counter. -/
structure TrackArgs where
  context : Bool
  type : TrackType
  id : Option String
  trackId : Nat
  label : String
  language : String

/-- Run a sequence of constructions against the process-wide counter,
returning the final counter and the constructed tracks in order. -/
def constructAll (counter : Int) : List TrackArgs → Int × List TrackBase
  | [] => (counter, [])
  | a :: rest =>
    let step := trackBaseInit counter a.context a.type a.id a.trackId a.label a.language
    let tail := constructAll step.1 rest
    (tail.1, step.2.1 :: tail.2)

/-- Placeholder track used only as the default of `List.getD`. -/
def dummyTrack : TrackBase :=
  { hasContext := false
    m_type := TrackType.TextTrack
    m_uniqueId := 0
    m_id := ""
    m_trackId := 0
    m_label := ""
    m_language := ""
    m_validBCP47Language := ""
    m_trackList := none }

end WebCore

namespace WebCore

/-- Claim C1: for every string `s`, `isValidTag s` returns true if and only
if `s` matches the spec's simplified BCP-47 grammar (length 2..100, first
character an ASCII letter, the length-2 / grandfathered / general cases,
and the generic suffix scan); in particular every string of length < 2 or
> 100 is rejected. -/
theorem isValidTag_iff_grammar (s : String) :
    isValidTag s = true ↔ bcp47Grammar s.data :=
  isValid_iff_grammar s.data

/-- Claim C6: the validator's verdicts on the spec's eight example tags. -/
theorem isValidTag_examples :
    isValidTag "en" = true ∧ isValidTag "e" = false ∧ isValidTag "eng" = true ∧
    isValidTag "en-US" = true ∧ isValidTag "i-klingon" = true ∧
    isValidTag "x-custom" = true ∧ isValidTag "1n" = false ∧
    isValidTag "en_US" = false := by
  decide

/-- Claim C5: `setLanguage ""` always stores the empty string as both raw
and validated language and posts no diagnostic, whatever the context
attachment; and the empty case is not decided by the character-grammar
validator, which itself rejects the empty string. -/
theorem setLanguage_empty (t : TrackBase) :
    TrackBase.setLanguage t "" =
      ({ t with m_language := "", m_validBCP47Language := "" }, []) ∧
    isValidTag "" = false := by
  constructor
  · simp [TrackBase.setLanguage]
  · decide

/-- Claim C8: for every kind-validity predicate and kind value, the kind
mutator stores the kind when the predicate accepts it and the empty string
otherwise, and posts no diagnostic in either case. -/
theorem setKind_stores_or_clears (isValidKind : String → Bool)
    (m : MediaTrackBase) (kind : String) :
    (MediaTrackBase.setKind isValidKind m kind).1.m_kind =
      (if isValidKind kind = true then kind else "") ∧
    (MediaTrackBase.setKind isValidKind m kind).2 = [] := by
  by_cases h : isValidKind kind = true <;>
    simp [MediaTrackBase.setKind, MediaTrackBase.setKindInternal, h]

/-- Claim C9: after `setTrackList L` the list accessor returns `L`
(whatever list was referenced before), after a subsequent
`clearTrackList` it returns none, and both operations change nothing but
the back-reference. -/
theorem setTrackList_then_clear (t : TrackBase) (L : Nat) :
    (t.setTrackList L).trackList = some L ∧
    t.setTrackList L = { t with m_trackList := some L } ∧
    ((t.setTrackList L).clearTrackList).trackList = none ∧
    (t.setTrackList L).clearTrackList = { t with m_trackList := none } := by
  refine ⟨rfl, rfl, rfl, rfl⟩

end WebCore

namespace WebCore

/-- The spec's language invariant: the validated language is empty or a
valid BCP-47 tag, and is empty whenever the raw language is empty. -/
def languageInvariant (t : TrackBase) : Prop :=
  (t.m_validBCP47Language = "" ∨ isValidTag t.m_validBCP47Language = true) ∧
  (t.m_language = "" → t.m_validBCP47Language = "")

/-- A tag accepted by the validator is not the empty string. -/
theorem valid_ne_empty {s : String} (hv : isValidTag s = true) : s ≠ "" := by
  intro he
  rw [he] at hv
  exact absurd hv (by decide)

/-- Claim C2: the language invariant holds after construction (for any
constructor arguments) and after every call to `setLanguage` (from any
prior state). -/
theorem languageInvariant_holds (counter : Int) (context : Bool) (type : TrackType)
    (id : Option String) (trackId : Nat) (label : String) (language : String)
    (t : TrackBase) (l : String) :
    languageInvariant
      (trackBaseInit counter context type id trackId label language).2.1 ∧
    languageInvariant (TrackBase.setLanguage t l).1 := by
  constructor
  · unfold languageInvariant trackBaseInit
    by_cases h : isValidTag language = true
    · simp only [if_pos h]
      exact ⟨Or.inr h, fun he => absurd h (by rw [he]; decide)⟩
    · simp only [if_neg h]
      exact ⟨Or.inl trivial, fun _ => trivial⟩
  · unfold languageInvariant TrackBase.setLanguage
    by_cases hc : l = "" ∨ isValidTag l = true
    · simp only [if_pos hc]
      rcases hc with he | hv
      · exact ⟨Or.inl he, fun _ => he⟩
      · exact ⟨Or.inr hv, fun he => he⟩
    · simp only [if_neg hc]
      by_cases hctx : t.hasContext = false
      · simp only [if_pos hctx]
        exact ⟨Or.inl trivial, fun _ => trivial⟩
      · simp only [if_neg hctx]
        exact ⟨Or.inl trivial, fun _ => trivial⟩

/-- A valid tag (as a `String`) contains no null character. -/
theorem isValidTag_no_null {s : String} (hv : isValidTag s = true) :
    nullChar ∉ s.data :=
  valid_no_null hv

/-- Claim C3: setting the language to any string containing a null
character stores it raw, clears the validated language, and posts exactly
the null-character-specific diagnostic when a context is attached (and
nothing otherwise); such a string is never accepted by the validator. -/
theorem setLanguage_null_character (t : TrackBase) (s : String)
    (h : nullChar ∈ s.data) :
    isValidTag s = false ∧
    (TrackBase.setLanguage t s).1.m_language = s ∧
    (TrackBase.setLanguage t s).1.m_validBCP47Language = "" ∧
    (TrackBase.setLanguage t s).2 =
      (if t.hasContext = true then
        [{ source := MessageSource.Rendering, level := MessageLevel.Warning,
           message := "The language contains a null character and is not a valid BCP 47 language tag." }]
       else []) := by
  have hne : s ≠ "" := by
    intro he
    rw [he] at h
    simp at h
  have hinv : isValidTag s = false := by
    cases hb : isValidTag s
    · rfl
    · exact absurd h (isValidTag_no_null hb)
  have hcond : ¬(s = "" ∨ isValidTag s = true) := by
    rintro (he | hv)
    · exact hne he
    · rw [hinv] at hv
      exact Bool.false_ne_true hv
  refine ⟨hinv, ?_, ?_, ?_⟩ <;>
    unfold TrackBase.setLanguage <;>
    simp only [if_neg hcond]
  · split <;> rfl
  · split <;> rfl
  · by_cases hctx : t.hasContext = false
    · simp [hctx]
    · have hctx' : t.hasContext = true := by
        cases hb : t.hasContext
        · exact absurd hb hctx
        · rfl
      simp [hctx', h]

end WebCore

namespace WebCore

/-- Claim C4: setting the language to any non-empty invalid string without
a null character stores it raw, clears the validated language, and posts
exactly the general diagnostic (with the original string interpolated)
when a context is attached, and nothing when none is. -/
theorem setLanguage_invalid_general (t : TrackBase) (s : String)
    (hne : s ≠ "") (hinv : isValidTag s = false) (hnull : nullChar ∉ s.data) :
    (TrackBase.setLanguage t s).1.m_language = s ∧
    (TrackBase.setLanguage t s).1.m_validBCP47Language = "" ∧
    (TrackBase.setLanguage t s).2 =
      (if t.hasContext = true then
        [{ source := MessageSource.Rendering, level := MessageLevel.Warning,
           message := "The language '" ++ s ++ "' is not a valid BCP 47 language tag." }]
       else []) := by
  have hcond : ¬(s = "" ∨ isValidTag s = true) := by
    rintro (he | hv)
    · exact hne he
    · rw [hinv] at hv
      exact Bool.false_ne_true hv
  refine ⟨?_, ?_, ?_⟩ <;>
    unfold TrackBase.setLanguage <;>
    simp only [if_neg hcond]
  · split <;> rfl
  · split <;> rfl
  · by_cases hctx : t.hasContext = false
    · simp [hctx]
    · have hctx' : t.hasContext = true := by
        cases hb : t.hasContext
        · exact absurd hb hctx
        · rfl
      simp [hctx', hnull]

/-- Claim C10: constructing a track with a non-empty language rejected by
the validator leaves the validated language empty and posts no console
message, for every context attachment (construction never emits the
diagnostics that `setLanguage` does). -/
theorem construct_invalid_language_silent (counter : Int) (context : Bool)
    (type : TrackType) (id : Option String) (trackId : Nat) (label : String)
    (language : String) (hne : language ≠ "") (hinv : isValidTag language = false) :
    (trackBaseInit counter context type id trackId label language).2.1.m_language =
      language ∧
    (trackBaseInit counter context type id trackId label
      language).2.1.m_validBCP47Language = "" ∧
    (trackBaseInit counter context type id trackId label language).2.2 = [] := by
  unfold trackBaseInit
  simp [hinv]

/-- Length of a construction sequence's output. -/
theorem constructAll_length (counter : Int) (l : List TrackArgs) :
    (constructAll counter l).2.length = l.length := by
  induction l generalizing counter with
  | nil => rfl
  | cons a rest ih => simp [constructAll, ih]

/-- The counter after a construction sequence. -/
theorem constructAll_counter (counter : Int) (l : List TrackArgs) :
    (constructAll counter l).1 = counter + l.length := by
  induction l generalizing counter with
  | nil => simp [constructAll]
  | cons a rest ih =>
    simp only [constructAll, trackBaseInit, List.length_cons, ih]
    push_cast
    ring

/-- The `k`-th track constructed receives id `counter + k + 1`. -/
theorem constructAll_getD_uniqueId (counter : Int) (l : List TrackArgs) (k : Nat)
    (hk : k < l.length) :
    ((constructAll counter l).2.getD k dummyTrack).m_uniqueId = counter + k + 1 := by
  induction l generalizing counter k with
  | nil => simp at hk
  | cons a rest ih =>
    cases k with
    | zero => simp [constructAll, trackBaseInit]
    | succ k =>
      have hk' : k < rest.length := by simpa using hk
      have := ih (counter + 1) k hk'
      simp only [constructAll, trackBaseInit, List.getD_cons_succ, this]
      push_cast
      ring

/-- Claim C7: in any sequence of constructions sharing the process-wide
counter, every later track's unique id is strictly greater than every
earlier one's, and the counter is incremented exactly once per
construction. -/
theorem uniqueIds_strictly_increasing (counter : Int) (l : List TrackArgs)
    (i j : Nat) (hij : i < j) (hj : j < l.length) :
    ((constructAll counter l).2.getD i dummyTrack).m_uniqueId <
      ((constructAll counter l).2.getD j dummyTrack).m_uniqueId ∧
    (constructAll counter l).1 = counter + l.length := by
  refine ⟨?_, constructAll_counter counter l⟩
  rw [constructAll_getD_uniqueId counter l i (by omega),
    constructAll_getD_uniqueId counter l j hj]
  omega

end WebCore

namespace WebCore

/-- Concrete track with an attached scripting context, for witnesses. -/
def sampleTrack : TrackBase :=
  { hasContext := true
    m_type := TrackType.TextTrack
    m_uniqueId := 1
    m_id := "1"
    m_trackId := 1
    m_label := ""
    m_language := ""
    m_validBCP47Language := ""
    m_trackList := none }

/-- Concrete language string containing a null character. -/
def nullTag : String := String.mk ['a', nullChar, 'b']

/-- Concrete constructor arguments, for witnesses. -/
def sampleArgs : TrackArgs :=
  { context := true
    type := TrackType.TextTrack
    id := none
    trackId := 7
    label := ""
    language := "" }

/-- Witness for C3 at a concrete track and null-containing string. -/
theorem setLanguage_null_character_witness :
    nullChar ∈ nullTag.data ∧
    (isValidTag nullTag = false ∧
     (TrackBase.setLanguage sampleTrack nullTag).1.m_language = nullTag ∧
     (TrackBase.setLanguage sampleTrack nullTag).1.m_validBCP47Language = "" ∧
     (TrackBase.setLanguage sampleTrack nullTag).2 =
       (if sampleTrack.hasContext = true then
         [{ source := MessageSource.Rendering, level := MessageLevel.Warning,
            message := "The language contains a null character and is not a valid BCP 47 language tag." }]
        else [])) :=
  ⟨by decide, setLanguage_null_character sampleTrack nullTag (by decide)⟩

/-- Witness for C4 at a concrete track and the spec's example string. -/
theorem setLanguage_invalid_general_witness :
    ("not valid!!" : String) ≠ "" ∧ isValidTag "not valid!!" = false ∧
    nullChar ∉ ("not valid!!" : String).data ∧
    ((TrackBase.setLanguage sampleTrack "not valid!!").1.m_language = "not valid!!" ∧
     (TrackBase.setLanguage sampleTrack "not valid!!").1.m_validBCP47Language = "" ∧
     (TrackBase.setLanguage sampleTrack "not valid!!").2 =
       (if sampleTrack.hasContext = true then
         [{ source := MessageSource.Rendering, level := MessageLevel.Warning,
            message := "The language '" ++ "not valid!!" ++ "' is not a valid BCP 47 language tag." }]
        else [])) :=
  ⟨by decide, by decide, by decide,
   setLanguage_invalid_general sampleTrack "not valid!!" (by decide) (by decide)
     (by decide)⟩

/-- Witness for C10 at concrete constructor arguments. -/
theorem construct_invalid_language_silent_witness :
    ("not valid!!" : String) ≠ "" ∧ isValidTag "not valid!!" = false ∧
    ((trackBaseInit 0 true TrackType.TextTrack none 7 "" "not valid!!").2.1.m_language =
       "not valid!!" ∧
     (trackBaseInit 0 true TrackType.TextTrack none 7 ""
       "not valid!!").2.1.m_validBCP47Language = "" ∧
     (trackBaseInit 0 true TrackType.TextTrack none 7 "" "not valid!!").2.2 = []) :=
  ⟨by decide, by decide,
   construct_invalid_language_silent 0 true TrackType.TextTrack none 7 "" "not valid!!"
     (by decide) (by decide)⟩

/-- Witness for C7 on a concrete two-construction sequence. -/
theorem uniqueIds_strictly_increasing_witness :
    0 < 1 ∧ 1 < ([sampleArgs, sampleArgs] : List TrackArgs).length ∧
    (((constructAll 0 [sampleArgs, sampleArgs]).2.getD 0 dummyTrack).m_uniqueId <
       ((constructAll 0 [sampleArgs, sampleArgs]).2.getD 1 dummyTrack).m_uniqueId ∧
     (constructAll 0 [sampleArgs, sampleArgs]).1 =
       0 + (([sampleArgs, sampleArgs] : List TrackArgs).length : Int)) :=
  ⟨by decide, by decide,
   uniqueIds_strictly_increasing 0 [sampleArgs, sampleArgs] 0 1 (by decide) (by decide)⟩

end WebCore
